import Mathlib

/-!
Shallow embedding of `src/job.rs` (benefice job-lifecycle subsystem).

The embedding models `Job::spawn` and `Job::kill` as pure functions over
explicit inputs standing for the environment interactions of the Rust code:

* the result of the `ss -ltnH` used-port query is the `usedRes` argument
  (`none` models a failed query, `some used` a successful snapshot);
* `rand::thread_rng().next_u32()` is the `randVal` argument;
* the `IP_LSB : AtomicU16` counter is threaded through as an explicit
  `ipLsb` argument; the value the outcome carries is the post-state of the
  counter (`fetch_add(2)` on a `u16` wraps modulo 65536);
* every external command invocation (`ip`, `iptables`, the runtime launch)
  is recorded as an `Event` in a trace; `cmdFail k` says whether the `k`-th
  issued provisioning command fails (the Rust code discards each such
  `Result` after optionally logging), and `execOk` whether `cmd.spawn()`
  for the runtime child succeeds;
* the `x % 0` panic of `rand_value % port_range.len()` on an empty range is
  modelled by the explicit `SpawnOutcome.panic` constructor;
* log messages are modelled by their `format!` literal prefix (the
  interpolated error/job-id suffix is dropped).

`u16` values are modelled as `Nat`; the only place where the width matters
is the `IP_LSB` counter, where `% 65536` is explicit.
-/

namespace Benefice

/-- `enum Workload` (from `super::Workload`): a Drawbridge slug, or an
uploaded local artifact holding two closable file handles (modelled by
numeric handle identities). -/
inductive Workload where
  | Drawbridge (slug : String)
  | Upload (wasm conf : Nat)
  deriving DecidableEq

/-- `std::process::Stdio` configuration of one standard stream. -/
inductive StreamCfg where
  | null
  | piped
  | inherit
  deriving DecidableEq

/-- The runtime child-process invocation built at the end of `spawn`:
program, arguments, stream configuration and the `kill_on_drop` flag. -/
structure RuntimeCmd where
  program : String
  args : List String
  stdin : StreamCfg
  stdout : StreamCfg
  stderr : StreamCfg
  killOnDrop : Bool
  deriving DecidableEq

/-- Observable actions of `spawn`/`kill`, in program order. -/
inductive Event where
  | queryUsedPorts (cmd : String)
  | runCmd (prog : String) (args : List String)
  | logError (msg : String)
  | execRuntime (cmd : RuntimeCmd)
  | startDestructor
  | abortDestructor
  | killProc
  | closeBinary (h : Nat)
  | closeConfig (h : Nat)
  deriving DecidableEq

/-- The `Job` struct fields relevant to the spec (the `AbortHandle` and
`Child` are represented by the trace events that create them). -/
structure JobModel where
  id : String
  mapped_ports : List (Nat × Nat)
  workload : Workload
  deriving DecidableEq

/-- The error responses `spawn` can produce (`axum` responses in the
source): a bare 500, or the 503 used for port exhaustion. -/
inductive Response where
  | internalServerError
  | serviceUnavailable (msg : String)
  deriving DecidableEq

/-- Result of a `spawn` call: a Rust panic (division by zero on an empty
port range), an error response, or a constructed `Job`.  `err`/`ok` carry
the event trace and the post-state of the `IP_LSB` counter. -/
inductive SpawnOutcome where
  | panic (trace : List Event)
  | err (resp : Response) (trace : List Event) (ipLsbNext : Nat)
  | ok (job : JobModel) (trace : List Event) (ipLsbNext : Nat)
  deriving DecidableEq

/-! ### Decimal rendering of port numbers and IP octets

`host.to_string()` / `format!` render numbers in decimal.  The rendering is
defined with a structural fuel argument so that it evaluates by `decide`:
`natDigitsRev fuel n` is the base-10 digit list of `n`, least significant
first, correct whenever `n ≤ fuel`. -/

/-- One decimal digit as a character. -/
def digitChar : Nat → Char
  | 0 => '0' | 1 => '1' | 2 => '2' | 3 => '3' | 4 => '4'
  | 5 => '5' | 6 => '6' | 7 => '7' | 8 => '8' | 9 => '9'
  | _ => '*'

/-- Base-10 digits of `n`, least significant first (correct for `n ≤ fuel`). -/
def natDigitsRev : Nat → Nat → List Nat
  | 0, _ => []
  | _ + 1, 0 => []
  | fuel + 1, n + 1 => (n + 1) % 10 :: natDigitsRev fuel ((n + 1) / 10)

/-- Evaluation of a least-significant-first digit list (used to prove that
decimal rendering is injective). -/
def ofDigitsRev : List Nat → Nat
  | [] => 0
  | d :: rest => d + 10 * ofDigitsRev rest

/-- Decimal string of a natural number (`u16::to_string` in the source). -/
def natRepr (n : Nat) : String :=
  if n = 0 then "0" else ⟨((natDigitsRev n n).map digitChar).reverse⟩

/-- `Ipv4Addr::new(a, b, c, d).to_string()`. -/
def ipv4String (a b c d : Nat) : String :=
  natRepr a ++ "." ++ natRepr b ++ "." ++ natRepr c ++ "." ++ natRepr d

/-- Host address of a job: `Ipv4Addr::new(192, 168, lsb >> 8, lsb as u8)`
for the `u16` counter value `lsb`. -/
def hostIpOf (lsb : Nat) : String :=
  ipv4String 192 168 (lsb / 256) (lsb % 256)

/-- Guest address of a job: `Ipv4Addr::new(192, 168, lsb >> 8, lsb as u8 + 1)`;
the `+ 1` is `u8` arithmetic, hence the wrap modulo 256. -/
def guestIpOf (lsb : Nat) : String :=
  ipv4String 192 168 (lsb / 256) ((lsb % 256 + 1) % 256)

/-! ### Port allocation (lines 82–103 of `job.rs`) -/

/-- The wrap-around scan order over the port range:
`(start..port_range.end).chain(port_range.start..start)` where
`start = port_range.start + rand_value % port_range.len()`. -/
def scanPorts (portStart portStop randVal : Nat) : List Nat :=
  List.range' (portStart + randVal % (portStop - portStart))
      (portStop - (portStart + randVal % (portStop - portStart))) ++
    List.range' portStart (randVal % (portStop - portStart))

/-- The scan order with the ports of the used-port snapshot filtered out
(`.filter(|p| !used.contains(p))`). -/
def freePortsOf (portStart portStop randVal : Nat) (used : Finset Nat) : List Nat :=
  (scanPorts portStart portStop randVal).filter (fun p => decide (p ∉ used))

/-- Last-write-wins insertion of a key-value pair into an association list,
modelling `HashMap::insert`. -/
def insertKV : List (Nat × Nat) → Nat × Nat → List (Nat × Nat)
  | [], kv => [kv]
  | (k, v) :: rest, kv => if k = kv.1 then (k, kv.2) :: rest else (k, v) :: insertKV rest kv

/-- `collect::<HashMap<_, _>>()` over an iterator of key-value pairs,
modelled as an association list with unique keys. -/
def hashMapCollect (l : List (Nat × Nat)) : List (Nat × Nat) :=
  l.foldl insertKV []

/-- The port mapping built by `spawn`: the free ports of the scan zipped
with the requested logical ports and collected into a `HashMap`, so the
KEYS are host ports and the VALUES are the requested logical ports. -/
def mappedOf (portStart portStop randVal : Nat) (used : Finset Nat) (ports : List Nat) :
    List (Nat × Nat) :=
  hashMapCollect ((freePortsOf portStart portStop randVal used).zip ports)

/-! ### External provisioning commands (lines 113–340 of `job.rs`) -/

/-- One external command invocation: program, arguments, and the message
logged if it fails (`none` for the per-port rules, whose `map_err` closure
builds a response but logs nothing). -/
structure ExtCmd where
  prog : String
  args : List String
  logMsg : Option String
  deriving DecidableEq

/-- The trace event of issuing an external command. -/
def cmdEvent (c : ExtCmd) : Event :=
  Event.runCmd c.prog c.args

/-- The thirteen fixed namespace/interface/NAT commands, in source order. -/
def fixedCmds (ipCmd iptablesCmd jobId hostIface guestIface hostIp guestIp netDevice : String) :
    List ExtCmd :=
  [ ⟨ipCmd, ["netns", "add", jobId], some "failed to create a network namespace"⟩,
    ⟨ipCmd, ["link", "add", hostIface, "type", "veth", "peer", "name", guestIface],
      some "failed to create a network device"⟩,
    ⟨ipCmd, ["link", "set", guestIface, "netns", jobId], some "failed to move network device"⟩,
    ⟨ipCmd, ["addr", "add", hostIp ++ "/24", "dev", hostIface],
      some "failed to assign host device IP"⟩,
    ⟨ipCmd, ["link", "set", "dev", hostIface, "up"], some "failed to enable host network device"⟩,
    ⟨ipCmd, ["netns", jobId, ipCmd, "link", "set", "dev", "lo", "up"],
      some "failed to enable guest localhost device"⟩,
    ⟨ipCmd, ["netns", jobId, ipCmd, "addr", "add", guestIp, "dev", guestIface],
      some "failed to assign guest device IP"⟩,
    ⟨ipCmd, ["netns", jobId, ipCmd, "link", "set", guestIface, "up"],
      some "failed to enable guest network device"⟩,
    ⟨ipCmd, ["netns", jobId, ipCmd, "route", "add", "default", "via", hostIp],
      some "failed to set default guest gateway"⟩,
    ⟨iptablesCmd, ["-t", "nat", "-A", "POSTROUTING", "-s", "127.0.0.1", "-j", "MASQUERADE"],
      some "failed to set masquerade rule"⟩,
    ⟨iptablesCmd,
      ["-t", "nat", "-A", "POSTROUTING", "!", "-s", "127.0.0.1", "-o", netDevice, "-j",
        "MASQUERADE"],
      some "failed to set masquerade rule"⟩,
    ⟨iptablesCmd, ["-t", "nat", "-A", "FORWARD", "-i", guestIface, "-o", hostIface, "-j", "ACCEPT"],
      some "failed to set guest->host forwarding rule"⟩,
    ⟨iptablesCmd, ["-t", "nat", "-A", "FORWARD", "-i", hostIface, "-o", guestIface, "-j", "ACCEPT"],
      some "failed to set host->guest forwarding rule"⟩ ]

/-- The DNAT rule issued for one `(host, guest)` entry of the mapping. -/
def dnatCmd (iptablesCmd hostIface guestIp : String) (host guest : Nat) : ExtCmd :=
  ⟨iptablesCmd,
    ["-t", "nat", "-A", "PREROUTING", "-p", "tcp", "-i", hostIface, "--dport", natRepr host,
      "-j", "DNAT", "--to-destination", guestIp ++ ":" ++ natRepr guest],
    none⟩

/-- The forward-accept rule issued for one `(host, guest)` entry. -/
def fwdCmd (iptablesCmd guestIp : String) (guest : Nat) : ExtCmd :=
  ⟨iptablesCmd,
    ["-A", "FORWARD", "-p", "tcp", "-d", guestIp, "--dport", natRepr guest, "-m", "state",
      "--state", "NEW,ESTABLISHED,RELATED", "-j", "ACCEPT"],
    none⟩

/-- The per-port command sequence (`for (host, guest) in &mapped`). -/
def portRuleCmds (iptablesCmd hostIface guestIp : String) (mapped : List (Nat × Nat)) :
    List ExtCmd :=
  mapped.flatMap fun hg =>
    [dnatCmd iptablesCmd hostIface guestIp hg.1 hg.2, fwdCmd iptablesCmd guestIp hg.2]

/-- The full provisioning command sequence of one `spawn` call with counter
value `lsb` and mapping `mapped`. -/
def spawnCmds (jobId ipCmd iptablesCmd netDevice : String) (lsb : Nat)
    (mapped : List (Nat × Nat)) : List ExtCmd :=
  fixedCmds ipCmd iptablesCmd jobId (jobId ++ "-host") (jobId ++ "-guest") (hostIpOf lsb)
      (guestIpOf lsb) netDevice ++
    portRuleCmds iptablesCmd (jobId ++ "-host") (guestIpOf lsb) mapped

/-- Issue a command list: the `k`-th command (global index) is recorded,
and if `cmdFail k` holds and the command has a log message, the message is
logged.  The result of each command is otherwise discarded (`_ = ...`),
so failures never abort the sequence. -/
def issue (k : Nat) (cmds : List ExtCmd) (cmdFail : Nat → Bool) : List Event :=
  match cmds with
  | [] => []
  | c :: rest =>
      cmdEvent c ::
        ((if cmdFail k then (c.logMsg.map Event.logError).toList else []) ++
          issue (k + 1) rest cmdFail)

/-! ### The runtime launch and `spawn` itself (lines 364–392) -/

/-- The runtime invocation (lines 364–376): stdin null, stdout/stderr
piped, `kill_on_drop(true)`, and the variant-specific arguments. -/
def runtimeCmd (enarxCmd : String) (w : Workload) : RuntimeCmd where
  program := enarxCmd
  args :=
    match w with
    | .Drawbridge slug => ["deploy", slug]
    | .Upload _ _ => ["run", "--wasmcfgfile", "/app/Enarx.toml", "/app/main.wasm"]
  stdin := .null
  stdout := .piped
  stderr := .piped
  killOnDrop := true

/-- The tail of `spawn`: attempt to start the runtime child; on failure log
and return a 500 (the destructor task is only started on success). -/
def finishSpawn (jobId : String) (w : Workload) (enarxCmd : String)
    (mapped : List (Nat × Nat)) (t : List Event) (lsbNext : Nat) (execOk : Bool) :
    SpawnOutcome :=
  if execOk then
    .ok ⟨jobId, mapped, w⟩
      (t ++ [.execRuntime (runtimeCmd enarxCmd w), .startDestructor]) lsbNext
  else
    .err .internalServerError
      (t ++ [.execRuntime (runtimeCmd enarxCmd w), .logError "failed to start job"]) lsbNext

/-- `Job::spawn`.  The `devices` parameter of the source is unused by its
body and omitted.  Branches, in source order: ports requested?; used-port
query result; `% port_range.len()` (panics on an empty range); the
insufficient-ports check; `ip_command.to_str()`; provisioning + launch. -/
def spawn (jobId : String) (w : Workload) (ipCommand : Option String)
    (iptablesCommand ssCommand enarxCommand : String)
    (portStart portStop : Nat) (ports : List Nat) (netDevice : String)
    (usedRes : Option (Finset Nat)) (randVal : Nat) (ipLsb : Nat)
    (cmdFail : Nat → Bool) (execOk : Bool) : SpawnOutcome :=
  if 0 < ports.length then
    match usedRes with
    | none =>
        .err .internalServerError
          [.queryUsedPorts ssCommand, .logError "failed to lookup used ports"] ipLsb
    | some used =>
        if portStop - portStart = 0 then
          .panic [.queryUsedPorts ssCommand]
        else if (mappedOf portStart portStop randVal used ports).length < ports.length then
          .err (.serviceUnavailable
              "Insufficient amount of open ports on the system, try again later")
            [.queryUsedPorts ssCommand] ipLsb
        else
          match ipCommand with
          | none => .err .internalServerError [.queryUsedPorts ssCommand] ipLsb
          | some ipCmd =>
              finishSpawn jobId w enarxCommand (mappedOf portStart portStop randVal used ports)
                (.queryUsedPorts ssCommand ::
                  issue 0
                    (spawnCmds jobId ipCmd iptablesCommand netDevice (ipLsb % 65536)
                      (mappedOf portStart portStop randVal used ports))
                    cmdFail)
                ((ipLsb % 65536 + 2) % 65536) execOk
  else
    finishSpawn jobId w enarxCommand [] [] ipLsb execOk

/-- The value of the `IP_LSB` counter before the `k`-th namespace-provisioning
`spawn` (the counter starts at 0 and each such spawn does `fetch_add(2)`,
wrapping as a `u16`). -/
def ipLsbSeq : Nat → Nat
  | 0 => 0
  | n + 1 => (ipLsbSeq n + 2) % 65536

/-- `Job::kill` (lines 394–409): abort the destructor, kill the child
(logging failure), and for `Upload` workloads close both handles, logging
close failures.  The return type carries no error: kill never propagates
one. -/
def kill (j : JobModel) (killOk binCloseOk confCloseOk : Bool) : List Event :=
  [Event.abortDestructor, Event.killProc] ++
    (if killOk then [] else [Event.logError "failed to kill job"]) ++
    (match j.workload with
     | .Drawbridge _ => []
     | .Upload wasm conf =>
         Event.closeBinary wasm ::
           ((if binCloseOk then [] else [Event.logError "failed to close main.wasm"]) ++
             Event.closeConfig conf ::
               (if confCloseOk then [] else [Event.logError "failed to close Enarx.toml"])))

/-! ### Projections used to state the claims -/

/-- The event trace of a spawn outcome. -/
def traceOf : SpawnOutcome → List Event
  | .panic t => t
  | .err _ t _ => t
  | .ok _ t _ => t

/-- The `mapped_ports` of a successful spawn. -/
def mappedPortsOf : SpawnOutcome → Option (List (Nat × Nat))
  | .ok j _ _ => some j.mapped_ports
  | _ => none

/-- Whether an outcome is the Rust panic. -/
def isPanic : SpawnOutcome → Bool
  | .panic _ => true
  | _ => false

/-- Whether an outcome is the 503 "insufficient ports" response. -/
def isServiceUnavailable : SpawnOutcome → Bool
  | .err (.serviceUnavailable _) _ _ => true
  | _ => false

/-- Whether an event is a log line. -/
def isLog : Event → Bool
  | .logError _ => true
  | _ => false

/-- Whether an event is an external command invocation. -/
def isRun : Event → Bool
  | .runCmd _ _ => true
  | _ => false

/-- An outcome with the log events erased from its trace: what a caller
(and the OS) observe, as opposed to the operator's log. -/
def visible : SpawnOutcome → SpawnOutcome
  | .panic t => .panic (t.filter fun e => !isLog e)
  | .err r t c => .err r (t.filter fun e => !isLog e) c
  | .ok j t c => .ok j (t.filter fun e => !isLog e) c

/-- The post-state of the `IP_LSB` counter recorded by a non-panicking
outcome. -/
def lsbNextOf : SpawnOutcome → Option Nat
  | .panic _ => none
  | .err _ _ c => some c
  | .ok _ _ c => some c

/-- Two counter-derived address pairs `{a, a+1}` and `{b, b+1}` overlap. -/
def pairClash (a b : Nat) : Prop :=
  a = b ∨ a = b + 1 ∨ a + 1 = b

/-! ## Helper lemmas: decimal rendering -/

theorem digitChar_inj : ∀ a b : Nat, a < 10 → b < 10 → digitChar a = digitChar b → a = b := by
  intro a b ha hb h
  interval_cases a <;> interval_cases b <;> revert h <;> decide

theorem mem_natDigitsRev_lt : ∀ fuel n d, d ∈ natDigitsRev fuel n → d < 10 := by
  intro fuel
  induction fuel with
  | zero => intro n d hd; simp [natDigitsRev] at hd
  | succ f ih =>
      intro n d hd
      match n with
      | 0 => simp [natDigitsRev] at hd
      | m + 1 =>
          simp only [natDigitsRev, List.mem_cons] at hd
          rcases hd with rfl | hd
          · exact Nat.mod_lt _ (by norm_num)
          · exact ih _ _ hd

theorem ofDigitsRev_natDigitsRev : ∀ fuel n, n ≤ fuel → ofDigitsRev (natDigitsRev fuel n) = n := by
  intro fuel
  induction fuel with
  | zero => intro n hn; interval_cases n; simp [natDigitsRev, ofDigitsRev]
  | succ f ih =>
      intro n hn
      match n with
      | 0 => simp [natDigitsRev, ofDigitsRev]
      | m + 1 =>
          have hdiv : (m + 1) / 10 ≤ f := by
            have := Nat.div_lt_self (Nat.succ_pos m) (by norm_num : 1 < 10)
            omega
          simp only [natDigitsRev, ofDigitsRev, ih _ hdiv]
          exact Nat.mod_add_div (m + 1) 10

theorem map_digitChar_inj :
    ∀ l₁ l₂ : List Nat, (∀ d ∈ l₁, d < 10) → (∀ d ∈ l₂, d < 10) →
      l₁.map digitChar = l₂.map digitChar → l₁ = l₂ := by
  intro l₁
  induction l₁ with
  | nil => intro l₂ _ _ h; cases l₂ <;> simp_all
  | cons a l ih =>
      intro l₂ h₁ h₂ h
      cases l₂ with
      | nil => simp at h
      | cons b l' =>
          simp only [List.map_cons, List.cons.injEq] at h
          have ha : a = b :=
            digitChar_inj a b (h₁ a (by simp)) (h₂ b (by simp)) h.1
          have hl : l = l' :=
            ih l' (fun d hd => h₁ d (by simp [hd])) (fun d hd => h₂ d (by simp [hd])) h.2
          rw [ha, hl]

theorem natRepr_inj : ∀ a b : Nat, natRepr a = natRepr b → a = b := by
  have key : ∀ a b : Nat, a ≠ 0 → b ≠ 0 → natRepr a = natRepr b → a = b := by
    intro a b ha hb h
    simp only [natRepr, if_neg ha, if_neg hb, String.ext_iff] at h
    have h' := List.reverse_injective h
    have hdig := map_digitChar_inj _ _ (fun d hd => mem_natDigitsRev_lt _ _ _ hd)
      (fun d hd => mem_natDigitsRev_lt _ _ _ hd) h'
    have := ofDigitsRev_natDigitsRev a a le_rfl
    rw [hdig, ofDigitsRev_natDigitsRev b b le_rfl] at this
    exact this.symm
  have zero_ne : ∀ b : Nat, b ≠ 0 → natRepr 0 ≠ natRepr b := by
    intro b hb h
    rw [show natRepr 0 = "0" from rfl] at h
    simp only [natRepr, if_neg hb, String.ext_iff] at h
    have hrev : (natDigitsRev b b).map digitChar = ['0'] := by
      have := congrArg List.reverse h
      simpa using this.symm
    have : natDigitsRev b b = [0] := by
      cases hd : natDigitsRev b b with
      | nil => rw [hd] at hrev; simp at hrev
      | cons d rest =>
          rw [hd] at hrev
          simp only [List.map_cons, List.cons.injEq, List.map_eq_nil_iff] at hrev
          have hd10 : d < 10 := mem_natDigitsRev_lt b b d (by rw [hd]; simp)
          have : d = 0 := digitChar_inj d 0 hd10 (by norm_num) (by simpa using hrev.1)
          rw [this, hrev.2]
    have := ofDigitsRev_natDigitsRev b b le_rfl
    rw [this.symm, ‹natDigitsRev b b = [0]›] at hb
    simp [ofDigitsRev] at hb
  intro a b h
  by_cases ha : a = 0 <;> by_cases hb : b = 0
  · rw [ha, hb]
  · exact absurd (ha ▸ h) (zero_ne b hb)
  · exact absurd (hb ▸ h.symm) (zero_ne a ha)
  · exact key a b ha hb h

/-! ## Helper lemmas: lists and the HashMap model -/

theorem length_filter_split (l : List Nat) (p : Nat → Bool) :
    (l.filter p).length + (l.filter fun a => !p a).length = l.length := by
  induction l with
  | nil => simp
  | cons a l ih =>
      by_cases h : p a = true <;> simp [List.filter_cons, h, ← ih] <;> omega

theorem map_fst_zip_sublist :
    ∀ (l₁ : List Nat) (l₂ : List Nat), ((l₁.zip l₂).map Prod.fst).Sublist l₁ := by
  intro l₁
  induction l₁ with
  | nil => intro l₂; simp
  | cons a l ih =>
      intro l₂
      cases l₂ with
      | nil => simp
      | cons b l' => simpa using (ih l').cons₂ a

theorem insertKV_of_not_mem (acc : List (Nat × Nat)) (kv : Nat × Nat)
    (h : kv.1 ∉ acc.map Prod.fst) : insertKV acc kv = acc ++ [kv] := by
  induction acc with
  | nil => rfl
  | cons hd tl ih =>
      obtain ⟨k, v⟩ := hd
      simp only [List.map_cons, List.mem_cons, not_or] at h
      simp only [insertKV, if_neg (Ne.symm h.1), List.cons_append, List.cons.injEq, true_and]
      exact ih h.2

theorem foldl_insertKV (l acc : List (Nat × Nat))
    (h : ((acc ++ l).map Prod.fst).Nodup) : l.foldl insertKV acc = acc ++ l := by
  induction l generalizing acc with
  | nil => simp
  | cons hd tl ih =>
      have hmem : hd.1 ∉ acc.map Prod.fst := by
        intro hc
        rw [List.map_append, List.nodup_append] at h
        exact h.2.2 hc (by simp)
      have step : insertKV acc hd = acc ++ [hd] := insertKV_of_not_mem acc hd hmem
      have h' : (((acc ++ [hd]) ++ tl).map Prod.fst).Nodup := by
        simpa [List.append_assoc] using h
      simp only [List.foldl_cons, step, ih (acc ++ [hd]) h', List.append_assoc,
        List.singleton_append]

theorem hashMapCollect_of_nodup_keys (l : List (Nat × Nat))
    (h : (l.map Prod.fst).Nodup) : hashMapCollect l = l :=
  foldl_insertKV l [] (by simpa using h)

/-! ## Helper lemmas: the port scan -/

theorem scanPorts_perm (portStart portStop randVal : Nat) (h : portStart < portStop) :
    (scanPorts portStart portStop randVal).Perm
      (List.range' portStart (portStop - portStart)) := by
  unfold scanPorts
  have hoff : randVal % (portStop - portStart) < portStop - portStart :=
    Nat.mod_lt _ (by omega)
  refine (List.perm_append_comm).trans ?_
  have := List.range'_append portStart (randVal % (portStop - portStart))
    (portStop - (portStart + randVal % (portStop - portStart))) 1
  simp only [one_mul] at this
  rw [this]
  have : portStop - (portStart + randVal % (portStop - portStart)) +
      randVal % (portStop - portStart) = portStop - portStart := by omega
  rw [this]

theorem scanPorts_length (portStart portStop randVal : Nat) (h : portStart < portStop) :
    (scanPorts portStart portStop randVal).length = portStop - portStart := by
  have := (scanPorts_perm portStart portStop randVal h).length_eq
  simpa using this

theorem mem_scanPorts {portStart portStop randVal p : Nat} (h : portStart < portStop) :
    p ∈ scanPorts portStart portStop randVal ↔ portStart ≤ p ∧ p < portStop := by
  rw [(scanPorts_perm portStart portStop randVal h).mem_iff, List.mem_range'_1]
  omega

theorem scanPorts_nodup (portStart portStop randVal : Nat) (h : portStart < portStop) :
    (scanPorts portStart portStop randVal).Nodup :=
  (scanPorts_perm portStart portStop randVal h).nodup_iff.mpr (List.nodup_range' _ _)

theorem freePortsOf_nodup (portStart portStop randVal : Nat) (used : Finset Nat)
    (h : portStart < portStop) : (freePortsOf portStart portStop randVal used).Nodup :=
  (scanPorts_nodup portStart portStop randVal h).filter _

theorem mem_freePortsOf {portStart portStop randVal p : Nat} {used : Finset Nat}
    (h : portStart < portStop) :
    p ∈ freePortsOf portStart portStop randVal used ↔
      (portStart ≤ p ∧ p < portStop) ∧ p ∉ used := by
  unfold freePortsOf
  rw [List.mem_filter, mem_scanPorts h]
  simp

/-- The scan finds at least `range size − used-snapshot size` free ports. -/
theorem freePortsOf_length_ge (portStart portStop randVal : Nat) (used : Finset Nat)
    (h : portStart < portStop) :
    portStop - portStart - used.card ≤ (freePortsOf portStart portStop randVal used).length := by
  have hlen : (scanPorts portStart portStop randVal).length = portStop - portStart :=
    scanPorts_length _ _ _ h
  have hsplit := length_filter_split (scanPorts portStart portStop randVal)
    (fun p => decide (p ∉ used))
  have hbound :
      ((scanPorts portStart portStop randVal).filter fun p => !decide (p ∉ used)).length ≤
        used.card := by
    set bad := (scanPorts portStart portStop randVal).filter fun p => !decide (p ∉ used) with hbad
    have hnodup : bad.Nodup := (scanPorts_nodup _ _ _ h).filter _
    have hsub : bad.toFinset ⊆ used := by
      intro x hx
      rw [List.mem_toFinset] at hx
      have := List.of_mem_filter hx
      simpa using this
    calc bad.length = bad.toFinset.card := (List.toFinset_card_of_nodup hnodup).symm
      _ ≤ used.card := Finset.card_le_card hsub
  have hfree : (freePortsOf portStart portStop randVal used).length =
      ((scanPorts portStart portStop randVal).filter fun p => decide (p ∉ used)).length := rfl
  omega

/-! ## Helper lemmas: the mapping -/

theorem mappedOf_eq_zip (portStart portStop randVal : Nat) (used : Finset Nat)
    (ports : List Nat) (h : portStart < portStop) :
    mappedOf portStart portStop randVal used ports =
      (freePortsOf portStart portStop randVal used).zip ports := by
  unfold mappedOf
  refine hashMapCollect_of_nodup_keys _ ?_
  exact (map_fst_zip_sublist _ _).nodup (freePortsOf_nodup _ _ _ _ h)

theorem mappedOf_keys_nodup (portStart portStop randVal : Nat) (used : Finset Nat)
    (ports : List Nat) (h : portStart < portStop) :
    ((mappedOf portStart portStop randVal used ports).map Prod.fst).Nodup := by
  rw [mappedOf_eq_zip _ _ _ _ _ h]
  exact (map_fst_zip_sublist _ _).nodup (freePortsOf_nodup _ _ _ _ h)

theorem mappedOf_length (portStart portStop randVal : Nat) (used : Finset Nat)
    (ports : List Nat) (h : portStart < portStop)
    (hN : ports.length ≤ (freePortsOf portStart portStop randVal used).length) :
    (mappedOf portStart portStop randVal used ports).length = ports.length := by
  rw [mappedOf_eq_zip _ _ _ _ _ h, List.length_zip]
  omega

theorem mappedOf_mem {portStart portStop randVal : Nat} {used : Finset Nat}
    {ports : List Nat} {hg : Nat × Nat} (h : portStart < portStop)
    (hmem : hg ∈ mappedOf portStart portStop randVal used ports) :
    (portStart ≤ hg.1 ∧ hg.1 < portStop) ∧ hg.1 ∉ used := by
  rw [mappedOf_eq_zip _ _ _ _ _ h] at hmem
  obtain ⟨h1, _⟩ := List.of_mem_zip hmem
  exact (mem_freePortsOf h).mp h1

theorem mappedOf_values (portStart portStop randVal : Nat) (used : Finset Nat)
    (ports : List Nat) (h : portStart < portStop)
    (hN : ports.length ≤ (freePortsOf portStart portStop randVal used).length) :
    (mappedOf portStart portStop randVal used ports).map Prod.snd = ports := by
  rw [mappedOf_eq_zip _ _ _ _ _ h]
  exact List.map_snd_zip _ _ hN

/-! ## Helper lemmas: command issuing -/

theorem issue_append (xs ys : List ExtCmd) (k : Nat) (f : Nat → Bool) :
    issue k (xs ++ ys) f = issue k xs f ++ issue (k + xs.length) ys f := by
  induction xs generalizing k with
  | nil => simp [issue]
  | cons c rest ih =>
      simp only [List.cons_append, issue, List.length_cons, List.append_eq]
      rw [ih (k + 1)]
      have h2 : k + 1 + rest.length = k + (rest.length + 1) := by omega
      rw [h2, List.append_assoc]

theorem issue_of_no_log (cmds : List ExtCmd) (k : Nat) (f : Nat → Bool)
    (h : ∀ c ∈ cmds, c.logMsg = none) : issue k cmds f = cmds.map cmdEvent := by
  induction cmds generalizing k with
  | nil => rfl
  | cons c rest ih =>
      have hc : c.logMsg = none := h c (by simp)
      simp [issue, hc, ih (k + 1) fun d hd => h d (by simp [hd])]

theorem cmdEvent_mem_issue {c : ExtCmd} {cmds : List ExtCmd} (k : Nat) (f : Nat → Bool)
    (h : c ∈ cmds) : cmdEvent c ∈ issue k cmds f := by
  induction cmds generalizing k with
  | nil => simp at h
  | cons d rest ih =>
      rcases List.mem_cons.mp h with rfl | h'
      · simp [issue]
      · simp only [issue, List.mem_cons, List.mem_append]
        exact Or.inr (Or.inr (ih (k + 1) h'))

theorem count_issue_zero (cmds : List ExtCmd) (k : Nat) (f : Nat → Bool) (e : Event)
    (hc : ∀ c ∈ cmds, cmdEvent c ≠ e) (hl : ∀ m, e ≠ Event.logError m) :
    (issue k cmds f).count e = 0 := by
  induction cmds generalizing k with
  | nil => simp [issue]
  | cons c rest ih =>
      simp only [issue, List.count_cons, List.count_append]
      have h1 : (cmdEvent c == e) = false := by
        simpa using hc c (by simp)
      have h2 : (if f k then ((c.logMsg.map Event.logError).toList) else []).count e = 0 := by
        split
        · cases hm : c.logMsg with
          | none => simp
          | some m =>
              simp only [hm, Option.map_some', Option.toList_some, List.count_singleton]
              simpa using (hl m).symm
        · simp
      rw [h2, ih (k + 1) fun d hd => hc d (by simp [hd]), h1]
      simp

theorem filter_not_log_issue (cmds : List ExtCmd) (k : Nat) (f : Nat → Bool) :
    (issue k cmds f).filter (fun e => !isLog e) = cmds.map cmdEvent := by
  induction cmds generalizing k with
  | nil => rfl
  | cons c rest ih =>
      simp only [issue, List.filter_cons, List.filter_append]
      have h1 : (!isLog (cmdEvent c)) = true := by simp [cmdEvent, isLog]
      have h2 : ((if f k then ((c.logMsg.map Event.logError).toList) else []).filter
          fun e => !isLog e) = [] := by
        split
        · cases c.logMsg <;> simp [isLog]
        · simp
      simp [h1, h2, ih (k + 1)]

theorem logError_mem_issue (cmds : List ExtCmd) (k i : Nat) (f : Nat → Bool) (c : ExtCmd)
    (m : String) (hget : cmds.get? i = some c) (hmsg : c.logMsg = some m)
    (hf : f (k + i) = true) : Event.logError m ∈ issue k cmds f := by
  induction cmds generalizing k i with
  | nil => simp at hget
  | cons d rest ih =>
      cases i with
      | zero =>
          simp only [List.get?_cons_zero, Option.some.injEq] at hget
          subst hget
          simp only [Nat.add_zero] at hf
          simp [issue, hf, hmsg]
      | succ j =>
          simp only [List.get?_cons_succ] at hget
          have := ih (k + 1) j hget (by simpa [Nat.add_assoc, Nat.add_comm 1 j] using hf)
          simp only [issue, List.mem_cons, List.mem_append]
          exact Or.inr (Or.inr this)

theorem filter_log_issue_nil (cmds : List ExtCmd) (k : Nat) (f : Nat → Bool)
    (h : ∀ i c, cmds.get? i = some c → f (k + i) = true → c.logMsg = none) :
    (issue k cmds f).filter isLog = [] := by
  induction cmds generalizing k with
  | nil => rfl
  | cons c rest ih =>
      simp only [issue, List.filter_cons, List.filter_append]
      have h1 : isLog (cmdEvent c) = false := by simp [cmdEvent, isLog]
      have h2 : ((if f k then ((c.logMsg.map Event.logError).toList) else []).filter isLog)
          = [] := by
        split
        · have := h 0 c (by simp) (by simpa using ‹f k = true›)
          simp [this]
        · simp
      have h3 := ih (k + 1) fun i d hd hf =>
        h (i + 1) d (by simpa using hd) (by simpa [Nat.add_assoc, Nat.add_comm 1 i] using hf)
      simp [h1, h2, h3]

/-! ## Helper lemmas: unfolding `spawn` on its branches -/

theorem spawn_eq_main (jobId : String) (w : Workload) (ipc ipt ss enarx : String)
    (portStart portStop : Nat) (ports : List Nat) (nd : String) (used : Finset Nat)
    (rv lsb : Nat) (f : Nat → Bool) (e : Bool)
    (hne : ports ≠ []) (hrange : portStart < portStop)
    (hN : ports.length ≤ (freePortsOf portStart portStop rv used).length) :
    spawn jobId w (some ipc) ipt ss enarx portStart portStop ports nd (some used) rv lsb f e =
      finishSpawn jobId w enarx (mappedOf portStart portStop rv used ports)
        (.queryUsedPorts ss ::
          issue 0
            (spawnCmds jobId ipc ipt nd (lsb % 65536) (mappedOf portStart portStop rv used ports))
            f)
        ((lsb % 65536 + 2) % 65536) e := by
  have hlen0 : 0 < ports.length := List.length_pos.mpr hne
  have hrange0 : ¬(portStop - portStart = 0) := by omega
  have hmlen : (mappedOf portStart portStop rv used ports).length = ports.length :=
    mappedOf_length _ _ _ _ _ hrange hN
  have hnotlt : ¬((mappedOf portStart portStop rv used ports).length < ports.length) := by
    omega
  simp only [spawn, if_pos hlen0, if_neg hrange0, if_neg hnotlt]

theorem spawn_eq_zero_ports (jobId : String) (w : Workload) (ipc : Option String)
    (ipt ss enarx : String) (portStart portStop : Nat) (nd : String)
    (usedRes : Option (Finset Nat)) (rv lsb : Nat) (f : Nat → Bool) (e : Bool) :
    spawn jobId w ipc ipt ss enarx portStart portStop [] nd usedRes rv lsb f e =
      finishSpawn jobId w enarx [] [] lsb e := by
  simp [spawn]

theorem spawn_eq_insufficient (jobId : String) (w : Workload) (ipc : Option String)
    (ipt ss enarx : String) (portStart portStop : Nat) (ports : List Nat) (nd : String)
    (used : Finset Nat) (rv lsb : Nat) (f : Nat → Bool) (e : Bool)
    (hne : ports ≠ []) (hrange : portStart < portStop)
    (hlt : (mappedOf portStart portStop rv used ports).length < ports.length) :
    spawn jobId w ipc ipt ss enarx portStart portStop ports nd (some used) rv lsb f e =
      .err (.serviceUnavailable
          "Insufficient amount of open ports on the system, try again later")
        [.queryUsedPorts ss] lsb := by
  have hlen0 : 0 < ports.length := List.length_pos.mpr hne
  have hrange0 : ¬(portStop - portStart = 0) := by omega
  simp only [spawn, if_pos hlen0, if_neg hrange0, if_pos hlt]

/-! ## Helper lemmas: `finishSpawn` -/

theorem isPanic_finishSpawn (jobId : String) (w : Workload) (enarx : String)
    (m : List (Nat × Nat)) (t : List Event) (lsb : Nat) (e : Bool) :
    isPanic (finishSpawn jobId w enarx m t lsb e) = false := by
  cases e <;> simp [finishSpawn, isPanic]

theorem lsbNextOf_finishSpawn (jobId : String) (w : Workload) (enarx : String)
    (m : List (Nat × Nat)) (t : List Event) (lsb : Nat) (e : Bool) :
    lsbNextOf (finishSpawn jobId w enarx m t lsb e) = some lsb := by
  cases e <;> rfl

theorem mem_traceOf_finishSpawn {x : Event} (jobId : String) (w : Workload) (enarx : String)
    (m : List (Nat × Nat)) {t : List Event} (lsb : Nat) (e : Bool) (hx : x ∈ t) :
    x ∈ traceOf (finishSpawn jobId w enarx m t lsb e) := by
  cases e <;> simp [finishSpawn, traceOf, hx]

theorem execRuntime_mem_finishSpawn (jobId : String) (w : Workload) (enarx : String)
    (m : List (Nat × Nat)) (t : List Event) (lsb : Nat) (e : Bool) :
    Event.execRuntime (runtimeCmd enarx w) ∈ traceOf (finishSpawn jobId w enarx m t lsb e) := by
  cases e <;> simp [finishSpawn, traceOf]

/-! ## Claims -/

/-- C9: a spawn with zero requested ports (and a successful runtime launch)
returns a Job with empty `mapped_ports`, and its whole trace is the runtime
launch followed by starting the destructor task: no used-port query and no
namespace/interface/firewall command is invoked. -/
theorem spawn_zero_ports_frame (jobId : String) (w : Workload) (ipc : Option String)
    (ipt ss enarx : String) (portStart portStop : Nat) (nd : String)
    (usedRes : Option (Finset Nat)) (rv lsb : Nat) (f : Nat → Bool) :
    spawn jobId w ipc ipt ss enarx portStart portStop [] nd usedRes rv lsb f true =
      .ok ⟨jobId, [], w⟩ [.execRuntime (runtimeCmd enarx w), .startDestructor] lsb := by
  simp [spawn, finishSpawn]

/-- C10: `spawn` never reaches the `% port_range.len()` panic when the
configured range is non-empty; with an empty range and at least one
requested port, any run whose used-port query succeeds panics right after
the query (the division-by-zero branch is reached). -/
theorem spawn_total_iff_range_nonempty :
    (∀ (jobId : String) (w : Workload) (ipc : Option String) (ipt ss enarx : String)
        (portStart portStop : Nat) (ports : List Nat) (nd : String)
        (usedRes : Option (Finset Nat)) (rv lsb : Nat) (f : Nat → Bool) (e : Bool),
        portStart < portStop →
        isPanic (spawn jobId w ipc ipt ss enarx portStart portStop ports nd usedRes rv lsb f e) =
          false) ∧
    (∀ (jobId : String) (w : Workload) (ipc : Option String) (ipt ss enarx : String)
        (portStart portStop : Nat) (ports : List Nat) (nd : String) (used : Finset Nat)
        (rv lsb : Nat) (f : Nat → Bool) (e : Bool),
        ports ≠ [] → portStop ≤ portStart →
        spawn jobId w ipc ipt ss enarx portStart portStop ports nd (some used) rv lsb f e =
          .panic [.queryUsedPorts ss]) := by
  constructor
  · intro jobId w ipc ipt ss enarx portStart portStop ports nd usedRes rv lsb f e hrange
    by_cases hp : 0 < ports.length
    · cases usedRes with
      | none => simp [spawn, hp, isPanic]
      | some used =>
          have h0 : ¬(portStop - portStart = 0) := by omega
          by_cases hlt : (mappedOf portStart portStop rv used ports).length < ports.length
          · simp [spawn, hp, h0, hlt, isPanic]
          · cases ipc with
            | none => simp [spawn, hp, h0, hlt, isPanic]
            | some c => simp [spawn, hp, h0, hlt, isPanic_finishSpawn]
    · simp [spawn, hp, isPanic_finishSpawn]
  · intro jobId w ipc ipt ss enarx portStart portStop ports nd used rv lsb f e hne hle
    have hp : 0 < ports.length := List.length_pos.mpr hne
    have h0 : portStop - portStart = 0 := by omega
    simp [spawn, hp, h0]

/-- Witness for C10 at concrete inputs. -/
theorem spawn_total_iff_range_nonempty_witness :
    spawn "w" (.Drawbridge "s") (some "ip") "iptables" "ss" "enarx" 4000 4000 [99] "eth0"
        (some ∅) 7 0 (fun _ => false) true = .panic [.queryUsedPorts "ss"] :=
  spawn_total_iff_range_nonempty.2 "w" (.Drawbridge "s") (some "ip") "iptables" "ss" "enarx"
    4000 4000 [99] "eth0" ∅ 7 0 (fun _ => false) true (by decide) (by decide)

/-- C5: `kill` on an `Upload` (LocalArtifact) job records exactly one close
of the binary handle and one of the config handle, whatever the outcome of
the process-kill and of the two closes; each failing step only adds a log
event.  `kill` returns a plain trace (its type has no error component), so
no kill-time error is ever propagated. -/
theorem kill_closes_handles_once (j : JobModel) (wasm conf : Nat)
    (killOk binCloseOk confCloseOk : Bool) (hw : j.workload = .Upload wasm conf) :
    ((kill j killOk binCloseOk confCloseOk).count (.closeBinary wasm) = 1 ∧
      (kill j killOk binCloseOk confCloseOk).count (.closeConfig conf) = 1) ∧
    (killOk = false →
      Event.logError "failed to kill job" ∈ kill j killOk binCloseOk confCloseOk) ∧
    (binCloseOk = false →
      Event.logError "failed to close main.wasm" ∈ kill j killOk binCloseOk confCloseOk) ∧
    (confCloseOk = false →
      Event.logError "failed to close Enarx.toml" ∈ kill j killOk binCloseOk confCloseOk) := by
  cases killOk <;> cases binCloseOk <;> cases confCloseOk <;>
    simp [kill, hw, List.count_cons, List.count_append]

/-- Witness for C5: a kill in which every step fails still closes both
handles exactly once. -/
theorem kill_closes_handles_once_witness :
    ((kill ⟨"j", [], .Upload 3 4⟩ false false false).count (.closeBinary 3) = 1 ∧
      (kill ⟨"j", [], .Upload 3 4⟩ false false false).count (.closeConfig 4) = 1) ∧
    (false = false →
      Event.logError "failed to kill job" ∈ kill ⟨"j", [], .Upload 3 4⟩ false false false) ∧
    (false = false →
      Event.logError "failed to close main.wasm" ∈ kill ⟨"j", [], .Upload 3 4⟩ false false false) ∧
    (false = false →
      Event.logError "failed to close Enarx.toml" ∈ kill ⟨"j", [], .Upload 3 4⟩ false false false) :=
  kill_closes_handles_once ⟨"j", [], .Upload 3 4⟩ 3 4 false false false rfl

/-- C1: with a successful used-port query and runtime launch, a spawn
requesting `N > 0` ports with `N ≤ range size − used-snapshot size`
returns a Job whose `mapped_ports` has exactly `N` entries, pairwise
distinct host ports, all inside `[start, stop)` and none in the snapshot. -/
theorem spawn_allocates_ports (jobId : String) (w : Workload) (ipc ipt ss enarx : String)
    (portStart portStop : Nat) (ports : List Nat) (nd : String) (used : Finset Nat)
    (rv lsb : Nat) (f : Nat → Bool)
    (hne : ports ≠ []) (hN : ports.length ≤ portStop - portStart - used.card) :
    ∃ job t next,
      spawn jobId w (some ipc) ipt ss enarx portStart portStop ports nd (some used) rv lsb f
          true = .ok job t next ∧
        job.mapped_ports.length = ports.length ∧
        (job.mapped_ports.map Prod.fst).Nodup ∧
        ∀ hg ∈ job.mapped_ports, (portStart ≤ hg.1 ∧ hg.1 < portStop) ∧ hg.1 ∉ used := by
  have hlen0 : 0 < ports.length := List.length_pos.mpr hne
  have hrange : portStart < portStop := by omega
  have hfree : ports.length ≤ (freePortsOf portStart portStop rv used).length :=
    le_trans hN (freePortsOf_length_ge _ _ _ _ hrange)
  rw [spawn_eq_main jobId w ipc ipt ss enarx portStart portStop ports nd used rv lsb f true
    hne hrange hfree]
  simp only [finishSpawn, if_pos rfl]
  refine ⟨_, _, _, rfl, ?_, ?_, ?_⟩
  · exact mappedOf_length _ _ _ _ _ hrange hfree
  · exact mappedOf_keys_nodup _ _ _ _ _ hrange
  · intro hg hmem
    exact mappedOf_mem hrange hmem

/-- Witness for C1 at concrete inputs. -/
theorem spawn_allocates_ports_witness :
    ([80] : List Nat) ≠ [] ∧
    ([80] : List Nat).length ≤ 30002 - 30000 - (∅ : Finset Nat).card ∧
    ∃ job t next,
      spawn "j" (.Drawbridge "s") (some "ip") "iptables" "ss" "enarx" 30000 30002 [80] "eth0"
          (some ∅) 0 0 (fun _ => false) true = .ok job t next ∧
        job.mapped_ports.length = ([80] : List Nat).length ∧
        (job.mapped_ports.map Prod.fst).Nodup ∧
        ∀ hg ∈ job.mapped_ports, (30000 ≤ hg.1 ∧ hg.1 < 30002) ∧ hg.1 ∉ (∅ : Finset Nat) :=
  ⟨by decide, by decide,
    spawn_allocates_ports "j" (.Drawbridge "s") "ip" "iptables" "ss" "enarx" 30000 30002 [80]
      "eth0" ∅ 0 0 (fun _ => false) (by decide) (by decide)⟩

/-- C2 counterexample: with an EMPTY allocation range (which certainly has
fewer free ports than requested) and one requested port, `spawn` does not
fail with the service-unavailable condition — it panics on `% 0`. -/
theorem spawn_insufficient_cex :
    spawn "j" (.Drawbridge "s") (some "ip") "iptables" "ss" "enarx" 5000 5000 [80] "eth0"
        (some ∅) 0 0 (fun _ => false) true = .panic [.queryUsedPorts "ss"] ∧
    isServiceUnavailable
        (spawn "j" (.Drawbridge "s") (some "ip") "iptables" "ss" "enarx" 5000 5000 [80] "eth0"
          (some ∅) 0 0 (fun _ => false) true) = false := by
  constructor <;> rfl

/-- C2 (amended: the allocation range must also be non-empty, else `spawn`
panics instead): when the non-empty range holds fewer not-used ports than
the `N > 0` requested ones, `spawn` returns exactly the 503
"insufficient ports" response, with a trace containing only the used-port
query: no Job, no runtime launch, no destructor start, and no
namespace/NAT command. -/
theorem spawn_insufficient_unavailable (jobId : String) (w : Workload) (ipc : Option String)
    (ipt ss enarx : String) (portStart portStop : Nat) (ports : List Nat) (nd : String)
    (used : Finset Nat) (rv lsb : Nat) (f : Nat → Bool) (e : Bool)
    (hne : ports ≠ []) (hrange : portStart < portStop)
    (hfree : (((List.range' portStart (portStop - portStart))).filter
        fun p => decide (p ∉ used)).length < ports.length) :
    spawn jobId w ipc ipt ss enarx portStart portStop ports nd (some used) rv lsb f e =
      .err (.serviceUnavailable
          "Insufficient amount of open ports on the system, try again later")
        [.queryUsedPorts ss] lsb := by
  have hperm := (scanPorts_perm portStart portStop rv hrange).filter
    fun p => decide (p ∉ used)
  have hlen : (freePortsOf portStart portStop rv used).length =
      (((List.range' portStart (portStop - portStart))).filter
        fun p => decide (p ∉ used)).length := hperm.length_eq
  have hlt : (mappedOf portStart portStop rv used ports).length < ports.length := by
    rw [mappedOf_eq_zip _ _ _ _ _ hrange, List.length_zip]
    have h1 : (freePortsOf portStart portStop rv used).length ⊓ ports.length ≤
        (freePortsOf portStart portStop rv used).length := inf_le_left
    omega
  exact spawn_eq_insufficient jobId w ipc ipt ss enarx portStart portStop ports nd used rv lsb
    f e hne hrange hlt

/-- Witness for C2 (amended): range `[30000, 30002)` with both ports in the
used snapshot and one requested port. -/
theorem spawn_insufficient_unavailable_witness :
    spawn "j" (.Drawbridge "s") (some "ip") "iptables" "ss" "enarx" 30000 30002 [80] "eth0"
        (some {30000, 30001}) 0 0 (fun _ => false) true =
      .err (.serviceUnavailable
          "Insufficient amount of open ports on the system, try again later")
        [.queryUsedPorts "ss"] 0 :=
  spawn_insufficient_unavailable "j" (.Drawbridge "s") (some "ip") "iptables" "ss" "enarx"
    30000 30002 [80] "eth0" {30000, 30001} 0 0 (fun _ => false) true (by decide) (by decide)
    (by decide)

/-- C3 counterexample: a spawn that allocates host port 30000 for the
requested logical port 80 stores the entry as `mapped_ports[30000] = 80`
(host port as key); there is no entry keyed by the logical port 80, so the
claimed orientation `mapped_ports[80] = 30000` fails. -/
theorem mapped_ports_orientation_cex :
    mappedPortsOf
        (spawn "j" (.Drawbridge "s") (some "ip") "iptables" "ss" "enarx" 30000 30001 [80]
          "eth0" (some ∅) 0 0 (fun _ => false) true) = some [(30000, 80)] ∧
    (80, 30000) ∉ [((30000 : Nat), (80 : Nat))] := by
  constructor
  · rfl
  · decide

/-- C3 (amended: the orientation is reversed — keys of `mapped_ports` are
the host-allocated ports and values are the caller-requested logical
ports): in a successful spawn the values of `mapped_ports`, in order, are
exactly the requested logical ports, each key is a host port drawn from
the range and not in the used snapshot, and `mapped_ports` is empty when
no ports were requested. -/
theorem mapped_ports_keys_are_host_ports (jobId : String) (w : Workload)
    (ipc ipt ss enarx : String) (portStart portStop : Nat) (ports : List Nat) (nd : String)
    (used : Finset Nat) (rv lsb : Nat) (f : Nat → Bool)
    (hrange : portStart < portStop)
    (hN : ports.length ≤ portStop - portStart - used.card) :
    ∃ job t next,
      spawn jobId w (some ipc) ipt ss enarx portStart portStop ports nd (some used) rv lsb f
          true = .ok job t next ∧
        job.mapped_ports.map Prod.snd = ports ∧
        (∀ hg ∈ job.mapped_ports, (portStart ≤ hg.1 ∧ hg.1 < portStop) ∧ hg.1 ∉ used) ∧
        (ports = [] → job.mapped_ports = []) := by
  cases hp : ports with
  | nil =>
      rw [spawn_eq_zero_ports]
      simp only [finishSpawn, if_pos rfl]
      exact ⟨_, _, _, rfl, rfl, by simp, fun _ => rfl⟩
  | cons a l =>
      rw [← hp]
      have hne : ports ≠ [] := by rw [hp]; simp
      have hfree : ports.length ≤ (freePortsOf portStart portStop rv used).length :=
        le_trans hN (freePortsOf_length_ge _ _ _ _ hrange)
      rw [spawn_eq_main jobId w ipc ipt ss enarx portStart portStop ports nd used rv lsb f true
        hne hrange hfree]
      simp only [finishSpawn, if_pos rfl]
      refine ⟨_, _, _, rfl, ?_, ?_, ?_⟩
      · exact mappedOf_values _ _ _ _ _ hrange hfree
      · intro hg hmem
        exact mappedOf_mem hrange hmem
      · intro h
        rw [hp] at h
        simp at h

/-- Witness for C3 (amended) at concrete inputs. -/
theorem mapped_ports_keys_are_host_ports_witness :
    (30000 : Nat) < 30002 ∧
    ([80] : List Nat).length ≤ 30002 - 30000 - (∅ : Finset Nat).card ∧
    ∃ job t next,
      spawn "k" (.Upload 1 2) (some "ip") "iptables" "ss" "enarx" 30000 30002 [80] "eth0"
          (some ∅) 1 0 (fun _ => false) true = .ok job t next ∧
        job.mapped_ports.map Prod.snd = [80] ∧
        (∀ hg ∈ job.mapped_ports, (30000 ≤ hg.1 ∧ hg.1 < 30002) ∧ hg.1 ∉ (∅ : Finset Nat)) ∧
        (([80] : List Nat) = [] → job.mapped_ports = []) :=
  ⟨by decide, by decide,
    mapped_ports_keys_are_host_ports "k" (.Upload 1 2) "ip" "iptables" "ss" "enarx" 30000 30002
      [80] "eth0" ∅ 1 0 (fun _ => false) (by decide) (by decide)⟩

/-- Closed form of the `IP_LSB` counter sequence. -/
theorem ipLsbSeq_eq (n : Nat) : ipLsbSeq n = 2 * n % 65536 := by
  induction n with
  | zero => rfl
  | succ m ih =>
      show (ipLsbSeq m + 2) % 65536 = 2 * (m + 1) % 65536
      rw [ih]
      omega

/-- C4 counterexample: the `IP_LSB` counter is a `u16` and wraps, so job 0
and job 32768 receive the SAME host/guest address pair — the claim that no
two jobs are ever assigned overlapping pairs is false. -/
theorem addr_pair_reuse_cex :
    (0 : Nat) ≠ 32768 ∧
    hostIpOf (ipLsbSeq 32768) = hostIpOf (ipLsbSeq 0) ∧
    guestIpOf (ipLsbSeq 32768) = guestIpOf (ipLsbSeq 0) ∧
    pairClash (ipLsbSeq 0) (ipLsbSeq 32768) := by
  have h : ipLsbSeq 32768 = 0 := by rw [ipLsbSeq_eq]
  have h0 : ipLsbSeq 0 = 0 := rfl
  refine ⟨by norm_num, by rw [h, h0], by rw [h, h0], ?_⟩
  rw [h, h0]
  exact Or.inl rfl

/-- C4 (amended: pair disjointness holds among the first 32768 provisioning
spawns, i.e. within one wrap period of the `u16` counter, not forever):
each port-provisioning spawn advances the counter by 2 (mod 2^16) and
issues the address-assignment commands for host `192.168.hi.lo` and guest
`192.168.hi.(lo+1)` derived from the counter's high/low bytes; counter
values of distinct spawns within a wrap period never produce clashing
pairs; the first spawn gets the `.0`/`.1` suffixes and the second the
`.2`/`.3` ones. -/
theorem addr_pair_allocation :
    (∀ (jobId : String) (w : Workload) (ipc ipt ss enarx : String) (portStart portStop : Nat)
        (ports : List Nat) (nd : String) (used : Finset Nat) (rv lsb : Nat) (f : Nat → Bool)
        (e : Bool),
        ports ≠ [] → ports.length ≤ portStop - portStart - used.card →
        lsbNextOf (spawn jobId w (some ipc) ipt ss enarx portStart portStop ports nd
            (some used) rv lsb f e) = some ((lsb % 65536 + 2) % 65536) ∧
        Event.runCmd ipc
            ["addr", "add", hostIpOf (lsb % 65536) ++ "/24", "dev", jobId ++ "-host"] ∈
          traceOf (spawn jobId w (some ipc) ipt ss enarx portStart portStop ports nd
            (some used) rv lsb f e) ∧
        Event.runCmd ipc
            ["netns", jobId, ipc, "addr", "add", guestIpOf (lsb % 65536), "dev",
              jobId ++ "-guest"] ∈
          traceOf (spawn jobId w (some ipc) ipt ss enarx portStart portStop ports nd
            (some used) rv lsb f e)) ∧
    (∀ i j : Nat, i < j → j < 32768 → ¬pairClash (ipLsbSeq i) (ipLsbSeq j)) ∧
    (hostIpOf (ipLsbSeq 0) = "192.168.0.0" ∧ guestIpOf (ipLsbSeq 0) = "192.168.0.1" ∧
      hostIpOf (ipLsbSeq 1) = "192.168.0.2" ∧ guestIpOf (ipLsbSeq 1) = "192.168.0.3") := by
  refine ⟨?_, ?_, by decide⟩
  · intro jobId w ipc ipt ss enarx portStart portStop ports nd used rv lsb f e hne hN
    have hlen0 : 0 < ports.length := List.length_pos.mpr hne
    have hrange : portStart < portStop := by omega
    have hfree : ports.length ≤ (freePortsOf portStart portStop rv used).length :=
      le_trans hN (freePortsOf_length_ge _ _ _ _ hrange)
    rw [spawn_eq_main jobId w ipc ipt ss enarx portStart portStop ports nd used rv lsb f e
      hne hrange hfree]
    refine ⟨lsbNextOf_finishSpawn _ _ _ _ _ _ _, ?_, ?_⟩
    · have hc : (⟨ipc, ["addr", "add", hostIpOf (lsb % 65536) ++ "/24", "dev",
          jobId ++ "-host"], some "failed to assign host device IP"⟩ : ExtCmd) ∈
          spawnCmds jobId ipc ipt nd (lsb % 65536) (mappedOf portStart portStop rv used ports) := by
        unfold spawnCmds
        exact List.mem_append_left _ (by simp [fixedCmds])
      exact mem_traceOf_finishSpawn _ _ _ _ _ _
        (List.mem_cons_of_mem _ (cmdEvent_mem_issue 0 f hc))
    · have hc : (⟨ipc, ["netns", jobId, ipc, "addr", "add", guestIpOf (lsb % 65536), "dev",
          jobId ++ "-guest"], some "failed to assign guest device IP"⟩ : ExtCmd) ∈
          spawnCmds jobId ipc ipt nd (lsb % 65536) (mappedOf portStart portStop rv used ports) := by
        unfold spawnCmds
        exact List.mem_append_left _ (by simp [fixedCmds])
      exact mem_traceOf_finishSpawn _ _ _ _ _ _
        (List.mem_cons_of_mem _ (cmdEvent_mem_issue 0 f hc))
  · intro i j hij hj
    rw [ipLsbSeq_eq, ipLsbSeq_eq]
    unfold pairClash
    omega

/-- Witness for C4 (amended) at concrete inputs. -/
theorem addr_pair_allocation_witness :
    lsbNextOf
        (spawn "j" (.Drawbridge "s") (some "ip") "iptables" "ss" "enarx" 30000 30002 [80]
          "eth0" (some ∅) 0 0 (fun _ => false) true) = some ((0 % 65536 + 2) % 65536) ∧
    ¬pairClash (ipLsbSeq 0) (ipLsbSeq 1) :=
  ⟨(addr_pair_allocation.1 "j" (.Drawbridge "s") "ip" "iptables" "ss" "enarx" 30000 30002 [80]
      "eth0" ∅ 0 0 (fun _ => false) true (by decide) (by decide)).1,
    addr_pair_allocation.2.1 0 1 (by decide) (by decide)⟩

/-- C8: the runtime child is launched with `deploy <slug>` for a
`Drawbridge` (RemoteSlug) workload and with
`run --wasmcfgfile /app/Enarx.toml /app/main.wasm` for an `Upload`
(LocalArtifact) workload; stdin is discarded, stdout/stderr are piped,
`kill_on_drop` is set; and every spawn that reaches the launch step (here:
allocation preconditions hold, or no ports requested) records the launch
attempt of exactly this command in its trace. -/
theorem runtime_invocation :
    (∀ (enarx slug : String), (runtimeCmd enarx (.Drawbridge slug)).args = ["deploy", slug]) ∧
    (∀ (enarx : String) (wasm conf : Nat), (runtimeCmd enarx (.Upload wasm conf)).args =
      ["run", "--wasmcfgfile", "/app/Enarx.toml", "/app/main.wasm"]) ∧
    (∀ (enarx : String) (w : Workload),
      (runtimeCmd enarx w).program = enarx ∧ (runtimeCmd enarx w).stdin = .null ∧
      (runtimeCmd enarx w).stdout = .piped ∧ (runtimeCmd enarx w).stderr = .piped ∧
      (runtimeCmd enarx w).killOnDrop = true) ∧
    (∀ (jobId : String) (w : Workload) (ipc ipt ss enarx : String) (portStart portStop : Nat)
        (ports : List Nat) (nd : String) (used : Finset Nat) (rv lsb : Nat) (f : Nat → Bool)
        (e : Bool),
        ports.length ≤ portStop - portStart - used.card → portStart < portStop →
        Event.execRuntime (runtimeCmd enarx w) ∈
          traceOf (spawn jobId w (some ipc) ipt ss enarx portStart portStop ports nd
            (some used) rv lsb f e)) := by
  refine ⟨fun _ _ => rfl, fun _ _ _ => rfl,
    fun _ w => by cases w <;> exact ⟨rfl, rfl, rfl, rfl, rfl⟩, ?_⟩
  intro jobId w ipc ipt ss enarx portStart portStop ports nd used rv lsb f e hN hrange
  cases hp : ports with
  | nil =>
      rw [spawn_eq_zero_ports]
      exact execRuntime_mem_finishSpawn _ _ _ _ _ _ _
  | cons a l =>
      rw [← hp]
      have hne : ports ≠ [] := by rw [hp]; simp
      have hfree : ports.length ≤ (freePortsOf portStart portStop rv used).length :=
        le_trans hN (freePortsOf_length_ge _ _ _ _ hrange)
      rw [spawn_eq_main jobId w ipc ipt ss enarx portStart portStop ports nd used rv lsb f e
        hne hrange hfree]
      exact execRuntime_mem_finishSpawn _ _ _ _ _ _ _

/-- Witness for C8 at concrete inputs. -/
theorem runtime_invocation_witness :
    Event.execRuntime (runtimeCmd "enarx" (.Drawbridge "s")) ∈
      traceOf (spawn "j" (.Drawbridge "s") (some "ip") "iptables" "ss" "enarx" 30000 30002 []
        "eth0" (some ∅) 0 0 (fun _ => false) true) :=
  runtime_invocation.2.2.2 "j" (.Drawbridge "s") "ip" "iptables" "ss" "enarx" 30000 30002 []
    "eth0" ∅ 0 0 (fun _ => false) true (by decide) (by decide)

/-- `visible` of `finishSpawn` depends on the trace only through its
non-log events. -/
theorem visible_finishSpawn (jobId : String) (w : Workload) (enarx : String)
    (m : List (Nat × Nat)) (t t' : List Event) (lsbN : Nat) (e : Bool)
    (h : t.filter (fun x => !isLog x) = t'.filter (fun x => !isLog x)) :
    visible (finishSpawn jobId w enarx m t lsbN e) =
      visible (finishSpawn jobId w enarx m t' lsbN e) := by
  have hgen : ∀ tail : List Event,
      (t ++ tail).filter (fun x => !isLog x) = (t' ++ tail).filter (fun x => !isLog x) := by
    intro tail
    rw [List.filter_append, List.filter_append, h]
  cases e
  · show SpawnOutcome.err Response.internalServerError
        ((t ++ [Event.execRuntime (runtimeCmd enarx w),
          Event.logError "failed to start job"]).filter fun x => !isLog x) lsbN =
      SpawnOutcome.err Response.internalServerError
        ((t' ++ [Event.execRuntime (runtimeCmd enarx w),
          Event.logError "failed to start job"]).filter fun x => !isLog x) lsbN
    rw [hgen]
  · show SpawnOutcome.ok ⟨jobId, m, w⟩
        ((t ++ [Event.execRuntime (runtimeCmd enarx w),
          Event.startDestructor]).filter fun x => !isLog x) lsbN =
      SpawnOutcome.ok ⟨jobId, m, w⟩
        ((t' ++ [Event.execRuntime (runtimeCmd enarx w),
          Event.startDestructor]).filter fun x => !isLog x) lsbN
    rw [hgen]

/-- The per-port rules carry no log message. -/
theorem portRuleCmds_no_log (ipt hIf gIp : String) (mapped : List (Nat × Nat)) :
    ∀ c ∈ portRuleCmds ipt hIf gIp mapped, c.logMsg = none := by
  intro c hc
  unfold portRuleCmds at hc
  rw [List.mem_flatMap] at hc
  obtain ⟨hg, _, hc⟩ := hc
  simp only [List.mem_cons, List.not_mem_nil, or_false] at hc
  rcases hc with rfl | rfl <;> rfl

/-- C6 counterexample: a run in which exactly the two per-port rule
commands fail (`cmdFail k` for `k ≥ 13`) issues 15 provisioning commands
and logs NOTHING: the failures of the DNAT and forward-accept commands are
discarded without a log line, contrary to the claim that every
provisioning command failure is logged. -/
theorem provisioning_failure_unlogged_cex :
    ((traceOf (spawn "j" (.Drawbridge "s") (some "ip") "iptables" "ss" "enarx" 30000 30002 [80]
        "eth0" (some ∅) 0 0 (fun k => decide (13 ≤ k)) true)).filter isLog = []) ∧
    (traceOf (spawn "j" (.Drawbridge "s") (some "ip") "iptables" "ss" "enarx" 30000 30002 [80]
        "eth0" (some ∅) 0 0 (fun k => decide (13 ≤ k)) true)).countP isRun = 15 := by
  constructor <;> rfl

/-- C6 (amended: failures of the thirteen fixed namespace/interface/NAT
commands are logged; failures of the per-port DNAT/forward commands are
silently discarded; no failure ever aborts spawn): (1) the caller-visible
outcome — result, job, counter, and all non-log events, in particular
every issued command — is identical whatever subset of provisioning
commands fails; (2) whenever an issued command that has a log message
(the fixed ones, indices 0–12) fails, that message appears in the trace;
(3) if only per-port commands (indices ≥ 13) fail, nothing is logged. -/
theorem provisioning_failures_nonaborting :
    (∀ (jobId : String) (w : Workload) (ipc : Option String) (ipt ss enarx : String)
        (portStart portStop : Nat) (ports : List Nat) (nd : String)
        (usedRes : Option (Finset Nat)) (rv lsb : Nat) (f g : Nat → Bool) (e : Bool),
        visible (spawn jobId w ipc ipt ss enarx portStart portStop ports nd usedRes rv lsb f e)
          = visible
            (spawn jobId w ipc ipt ss enarx portStart portStop ports nd usedRes rv lsb g e)) ∧
    (∀ (jobId : String) (w : Workload) (ipc ipt ss enarx : String) (portStart portStop : Nat)
        (ports : List Nat) (nd : String) (used : Finset Nat) (rv lsb : Nat) (f : Nat → Bool)
        (e : Bool) (i : Nat) (c : ExtCmd) (m : String),
        ports ≠ [] → ports.length ≤ portStop - portStart - used.card →
        (spawnCmds jobId ipc ipt nd (lsb % 65536)
            (mappedOf portStart portStop rv used ports)).get? i = some c →
        c.logMsg = some m → f i = true →
        Event.logError m ∈ traceOf (spawn jobId w (some ipc) ipt ss enarx portStart portStop
          ports nd (some used) rv lsb f e)) ∧
    (∀ (jobId : String) (w : Workload) (ipc ipt ss enarx : String) (portStart portStop : Nat)
        (ports : List Nat) (nd : String) (used : Finset Nat) (rv lsb : Nat) (f : Nat → Bool),
        ports ≠ [] → ports.length ≤ portStop - portStart - used.card →
        (∀ k, k < 13 → f k = false) →
        (traceOf (spawn jobId w (some ipc) ipt ss enarx portStart portStop ports nd (some used)
          rv lsb f true)).filter isLog = []) := by
  refine ⟨?_, ?_, ?_⟩
  · intro jobId w ipc ipt ss enarx portStart portStop ports nd usedRes rv lsb f g e
    by_cases hp : 0 < ports.length
    · cases usedRes with
      | none => simp [spawn, hp]
      | some used =>
          by_cases h0 : portStop - portStart = 0
          · simp [spawn, hp, h0]
          · by_cases hlt :
                (mappedOf portStart portStop rv used ports).length < ports.length
            · simp [spawn, hp, h0, hlt]
            · cases ipc with
              | none => simp [spawn, hp, h0, hlt]
              | some c =>
                  simp only [spawn, if_pos hp, if_neg h0, if_neg hlt]
                  exact visible_finishSpawn _ _ _ _ _ _ _ _ (by
                    rw [List.filter_cons, List.filter_cons, filter_not_log_issue,
                      filter_not_log_issue])
    · simp [spawn, hp]
  · intro jobId w ipc ipt ss enarx portStart portStop ports nd used rv lsb f e i c m hne hN
      hget hmsg hf
    have hlen0 : 0 < ports.length := List.length_pos.mpr hne
    have hrange : portStart < portStop := by omega
    have hfree : ports.length ≤ (freePortsOf portStart portStop rv used).length :=
      le_trans hN (freePortsOf_length_ge _ _ _ _ hrange)
    rw [spawn_eq_main jobId w ipc ipt ss enarx portStart portStop ports nd used rv lsb f e
      hne hrange hfree]
    exact mem_traceOf_finishSpawn _ _ _ _ _ _
      (List.mem_cons_of_mem _
        (logError_mem_issue _ 0 i f c m hget hmsg (by simpa using hf)))
  · intro jobId w ipc ipt ss enarx portStart portStop ports nd used rv lsb f hne hN hfk
    have hlen0 : 0 < ports.length := List.length_pos.mpr hne
    have hrange : portStart < portStop := by omega
    have hfree : ports.length ≤ (freePortsOf portStart portStop rv used).length :=
      le_trans hN (freePortsOf_length_ge _ _ _ _ hrange)
    rw [spawn_eq_main jobId w ipc ipt ss enarx portStart portStop ports nd used rv lsb f true
      hne hrange hfree]
    show ((Event.queryUsedPorts ss ::
        issue 0 (spawnCmds jobId ipc ipt nd (lsb % 65536)
          (mappedOf portStart portStop rv used ports)) f) ++
      [Event.execRuntime (runtimeCmd enarx w), Event.startDestructor]).filter isLog = []
    rw [List.filter_append, List.filter_cons]
    have hq : isLog (Event.queryUsedPorts ss) = false := rfl
    have hiss : (issue 0 (spawnCmds jobId ipc ipt nd (lsb % 65536)
        (mappedOf portStart portStop rv used ports)) f).filter isLog = [] := by
      refine filter_log_issue_nil _ 0 f ?_
      intro i cc hgetc hfc
      by_cases hi : i < 13
      · exact absurd (by simpa using hfc) (by simp [hfk i hi])
      · unfold spawnCmds at hgetc
        rw [List.get?_append_right (by
          simpa [fixedCmds] using Nat.le_of_not_lt hi)] at hgetc
        exact portRuleCmds_no_log _ _ _ _ cc (List.get?_mem hgetc)
    simp [hq, hiss, isLog]

/-- Witness for C6 (amended): with every command failing vs none failing,
the visible outcome coincides; and the failed first fixed command's
message is logged. -/
theorem provisioning_failures_nonaborting_witness :
    (visible (spawn "j" (.Drawbridge "s") (some "ip") "iptables" "ss" "enarx" 30000 30002 [80]
        "eth0" (some ∅) 0 0 (fun _ => true) true) =
      visible (spawn "j" (.Drawbridge "s") (some "ip") "iptables" "ss" "enarx" 30000 30002 [80]
        "eth0" (some ∅) 0 0 (fun _ => false) true)) ∧
    Event.logError "failed to create a network namespace" ∈
      traceOf (spawn "j" (.Drawbridge "s") (some "ip") "iptables" "ss" "enarx" 30000 30002 [80]
        "eth0" (some ∅) 0 0 (fun _ => true) true) :=
  ⟨provisioning_failures_nonaborting.1 "j" (Workload.Drawbridge "s") (some "ip") "iptables"
      "ss" "enarx" 30000 30002 [80] "eth0" (some ∅) 0 0 (fun _ => true) (fun _ => false) true,
    provisioning_failures_nonaborting.2.1 "j" (Workload.Drawbridge "s") "ip" "iptables" "ss"
      "enarx"
      30000 30002 [80] "eth0" ∅ 0 0 (fun _ => true) true 0
      ⟨"ip", ["netns", "add", "j"], some "failed to create a network namespace"⟩
      "failed to create a network namespace" (by decide) (by decide) (by rfl) rfl rfl⟩

/-! ## Helper lemmas: distinguishing the NAT rule events -/

theorem runCmd_ne_of_length {p₁ p₂ : String} {a₁ a₂ : List String}
    (h : a₁.length ≠ a₂.length) : Event.runCmd p₁ a₁ ≠ Event.runCmd p₂ a₂ := by
  intro hc
  injection hc with h1 h2
  exact h (by rw [h2])

theorem runCmd_ne_of_head {p₁ p₂ : String} {a₁ a₂ : List String}
    (h : a₁.head? ≠ a₂.head?) : Event.runCmd p₁ a₁ ≠ Event.runCmd p₂ a₂ := by
  intro hc
  injection hc with h1 h2
  exact h (by rw [h2])

theorem fixed_ne_rules (ipc ipt jobId hIf gIf hIp gIp nd ipt' hIf' gIp' : String) (h g : Nat) :
    ∀ c ∈ fixedCmds ipc ipt jobId hIf gIf hIp gIp nd,
      cmdEvent c ≠ cmdEvent (dnatCmd ipt' hIf' gIp' h g) ∧
        cmdEvent c ≠ cmdEvent (fwdCmd ipt' gIp' g) := by
  intro c hc
  simp only [fixedCmds, List.mem_cons, List.not_mem_nil, or_false] at hc
  rcases hc with rfl | rfl | rfl | rfl | rfl | rfl | rfl | rfl | rfl | rfl | rfl | rfl | rfl <;>
    exact ⟨runCmd_ne_of_length (by simp [cmdEvent, dnatCmd]),
      runCmd_ne_of_length (by simp [cmdEvent, fwdCmd])⟩

theorem fwd_ne_dnat (ipt hIf gIp ipt' gIp' : String) (h g g' : Nat) :
    cmdEvent (fwdCmd ipt' gIp' g') ≠ cmdEvent (dnatCmd ipt hIf gIp h g) :=
  runCmd_ne_of_head (by simp [cmdEvent, dnatCmd, fwdCmd])

theorem dnat_ne_fwd (ipt hIf gIp ipt' gIp' : String) (h g g' : Nat) :
    cmdEvent (dnatCmd ipt hIf gIp h g) ≠ cmdEvent (fwdCmd ipt' gIp' g') :=
  (fwd_ne_dnat ipt hIf gIp ipt' gIp' h g g').symm

theorem dnatCmd_key_inj {ipt hIf gIp : String} {h₁ g₁ h₂ g₂ : Nat}
    (hc : cmdEvent (dnatCmd ipt hIf gIp h₁ g₁) = cmdEvent (dnatCmd ipt hIf gIp h₂ g₂)) :
    h₁ = h₂ := by
  have h9 := congrArg (fun e => match e with
    | Event.runCmd _ (_ :: _ :: _ :: _ :: _ :: _ :: _ :: _ :: _ :: x :: _) => some x
    | _ => none) hc
  simp only [cmdEvent, dnatCmd] at h9
  exact natRepr_inj _ _ (Option.some.inj h9)

theorem fwdCmd_val_inj {ipt gIp : String} {g₁ g₂ : Nat}
    (hc : cmdEvent (fwdCmd ipt gIp g₁) = cmdEvent (fwdCmd ipt gIp g₂)) : g₁ = g₂ := by
  have h7 := congrArg (fun e => match e with
    | Event.runCmd _ (_ :: _ :: _ :: _ :: _ :: _ :: _ :: x :: _) => some x
    | _ => none) hc
  simp only [cmdEvent, fwdCmd] at h7
  exact natRepr_inj _ _ (Option.some.inj h7)

/-! ## Helper lemmas: counting the per-port rules -/

theorem count_cons_ne {a b : Event} (l : List Event) (h : b ≠ a) :
    (b :: l).count a = l.count a := by
  simp [List.count_cons, beq_iff_eq, h]

theorem count_cons_self (a : Event) (l : List Event) : (a :: l).count a = l.count a + 1 := by
  simp [List.count_cons]

theorem count_portRules_zero (ipt hIf gIp : String) (rest : List (Nat × Nat)) (e : Event)
    (hne : ∀ q ∈ rest, cmdEvent (dnatCmd ipt hIf gIp q.1 q.2) ≠ e ∧
      cmdEvent (fwdCmd ipt gIp q.2) ≠ e) :
    ((portRuleCmds ipt hIf gIp rest).map cmdEvent).count e = 0 := by
  induction rest with
  | nil => simp [portRuleCmds]
  | cons p rest ih =>
      have hp := hne p (by simp)
      have hrest := ih fun q hq => hne q (by simp [hq])
      simp only [portRuleCmds, List.flatMap_cons, List.map_append, List.map_cons, List.map_nil,
        List.cons_append, List.nil_append] at hrest ⊢
      rw [count_cons_ne _ hp.1, count_cons_ne _ hp.2]
      exact hrest

theorem count_portRules_one (ipt hIf gIp : String) (mapped : List (Nat × Nat))
    (hkeys : (mapped.map Prod.fst).Nodup) (hvals : (mapped.map Prod.snd).Nodup) :
    ∀ hg ∈ mapped,
      ((portRuleCmds ipt hIf gIp mapped).map cmdEvent).count
          (cmdEvent (dnatCmd ipt hIf gIp hg.1 hg.2)) = 1 ∧
        ((portRuleCmds ipt hIf gIp mapped).map cmdEvent).count
          (cmdEvent (fwdCmd ipt gIp hg.2)) = 1 := by
  induction mapped with
  | nil => intro hg h; simp at h
  | cons p rest ih =>
      intro hg hmem
      have hkeys' : (rest.map Prod.fst).Nodup := (List.nodup_cons.mp hkeys).2
      have hvals' : (rest.map Prod.snd).Nodup := (List.nodup_cons.mp hvals).2
      have hkeyp : p.1 ∉ rest.map Prod.fst := (List.nodup_cons.mp hkeys).1
      have hvalp : p.2 ∉ rest.map Prod.snd := (List.nodup_cons.mp hvals).1
      rcases List.mem_cons.mp hmem with heq | hmem'
      · subst heq
        have hrest_dnat : ((portRuleCmds ipt hIf gIp rest).map cmdEvent).count
            (cmdEvent (dnatCmd ipt hIf gIp hg.1 hg.2)) = 0 := by
          refine count_portRules_zero _ _ _ _ _ fun q hq => ⟨?_, ?_⟩
          · intro hc
            exact hkeyp (dnatCmd_key_inj hc ▸ List.mem_map_of_mem Prod.fst hq)
          · exact fwd_ne_dnat _ _ _ _ _ _ _ _
        have hrest_fwd : ((portRuleCmds ipt hIf gIp rest).map cmdEvent).count
            (cmdEvent (fwdCmd ipt gIp hg.2)) = 0 := by
          refine count_portRules_zero _ _ _ _ _ fun q hq => ⟨?_, ?_⟩
          · exact dnat_ne_fwd _ _ _ _ _ _ _ _
          · intro hc
            exact hvalp (fwdCmd_val_inj hc ▸ List.mem_map_of_mem Prod.snd hq)
        simp only [portRuleCmds, List.flatMap_cons, List.map_append, List.map_cons,
          List.map_nil, List.cons_append, List.nil_append] at hrest_dnat hrest_fwd ⊢
        constructor
        · rw [count_cons_self,
            count_cons_ne _ (fwd_ne_dnat ipt hIf gIp ipt gIp hg.1 hg.2 hg.2), hrest_dnat]
        · rw [count_cons_ne _ (dnat_ne_fwd ipt hIf gIp ipt gIp hg.1 hg.2 hg.2),
            count_cons_self, hrest_fwd]
      · have hres := ih hkeys' hvals' hg hmem'
        have hkey_ne : p.1 ≠ hg.1 := by
          intro hc
          exact hkeyp (hc ▸ List.mem_map_of_mem Prod.fst hmem')
        have hval_ne : p.2 ≠ hg.2 := by
          intro hc
          exact hvalp (hc ▸ List.mem_map_of_mem Prod.snd hmem')
        have h1 : cmdEvent (dnatCmd ipt hIf gIp p.1 p.2) ≠
            cmdEvent (dnatCmd ipt hIf gIp hg.1 hg.2) := fun hc => hkey_ne (dnatCmd_key_inj hc)
        have h2 : cmdEvent (fwdCmd ipt gIp p.2) ≠ cmdEvent (fwdCmd ipt gIp hg.2) :=
          fun hc => hval_ne (fwdCmd_val_inj hc)
        have hres1 := hres.1
        have hres2 := hres.2
        simp only [portRuleCmds, List.flatMap_cons, List.map_append, List.map_cons,
          List.map_nil, List.cons_append, List.nil_append] at hres1 hres2 ⊢
        constructor
        · rw [count_cons_ne _ h1,
            count_cons_ne _ (fwd_ne_dnat ipt hIf gIp ipt gIp hg.1 hg.2 p.2), hres1]
        · rw [count_cons_ne _ (dnat_ne_fwd ipt hIf gIp ipt gIp p.1 p.2 hg.2),
            count_cons_ne _ h2, hres2]

/-- C7 (amended: restricted to spawns whose requested logical ports are
pairwise distinct; with a repeated logical port the forward-accept rule for
that destination/port is issued once per mapping entry, i.e. more than
once): in a successful port-allocating spawn the trace splits as
`pre ++ per-port rules ++ post`, where the per-port segment is exactly one
DNAT rule followed by one NEW/ESTABLISHED/RELATED forward-accept rule per
mapping entry, the two masquerade rules and the two bidirectional
forward-accept rules all lie in `pre` (hence precede every per-port rule),
and for every mapping entry the whole trace contains exactly one DNAT rule
for its host port and exactly one forward-accept rule for its guest
destination/port. -/
theorem per_port_nat_rules (jobId : String) (w : Workload) (ipc ipt ss enarx : String)
    (portStart portStop : Nat) (ports : List Nat) (nd : String) (used : Finset Nat)
    (rv lsb : Nat) (f : Nat → Bool)
    (hne : ports ≠ []) (hN : ports.length ≤ portStop - portStart - used.card)
    (hports : ports.Nodup) :
    ∃ job pre post next,
      spawn jobId w (some ipc) ipt ss enarx portStart portStop ports nd (some used) rv lsb f
          true =
        .ok job
          (pre ++ (portRuleCmds ipt (jobId ++ "-host") (guestIpOf (lsb % 65536))
              job.mapped_ports).map cmdEvent ++ post) next ∧
      Event.runCmd ipt
          ["-t", "nat", "-A", "POSTROUTING", "-s", "127.0.0.1", "-j", "MASQUERADE"] ∈ pre ∧
      Event.runCmd ipt
          ["-t", "nat", "-A", "POSTROUTING", "!", "-s", "127.0.0.1", "-o", nd, "-j",
            "MASQUERADE"] ∈ pre ∧
      Event.runCmd ipt
          ["-t", "nat", "-A", "FORWARD", "-i", jobId ++ "-guest", "-o", jobId ++ "-host",
            "-j", "ACCEPT"] ∈ pre ∧
      Event.runCmd ipt
          ["-t", "nat", "-A", "FORWARD", "-i", jobId ++ "-host", "-o", jobId ++ "-guest",
            "-j", "ACCEPT"] ∈ pre ∧
      ∀ hg ∈ job.mapped_ports,
        (pre ++ (portRuleCmds ipt (jobId ++ "-host") (guestIpOf (lsb % 65536))
            job.mapped_ports).map cmdEvent ++ post).count
          (cmdEvent (dnatCmd ipt (jobId ++ "-host") (guestIpOf (lsb % 65536)) hg.1 hg.2)) =
            1 ∧
        (pre ++ (portRuleCmds ipt (jobId ++ "-host") (guestIpOf (lsb % 65536))
            job.mapped_ports).map cmdEvent ++ post).count
          (cmdEvent (fwdCmd ipt (guestIpOf (lsb % 65536)) hg.2)) = 1 := by
  have hlen0 : 0 < ports.length := List.length_pos.mpr hne
  have hrange : portStart < portStop := by omega
  have hfree : ports.length ≤ (freePortsOf portStart portStop rv used).length :=
    le_trans hN (freePortsOf_length_ge _ _ _ _ hrange)
  have hsplit : issue 0 (spawnCmds jobId ipc ipt nd (lsb % 65536)
      (mappedOf portStart portStop rv used ports)) f =
      issue 0 (fixedCmds ipc ipt jobId (jobId ++ "-host") (jobId ++ "-guest")
        (hostIpOf (lsb % 65536)) (guestIpOf (lsb % 65536)) nd) f ++
        (portRuleCmds ipt (jobId ++ "-host") (guestIpOf (lsb % 65536))
          (mappedOf portStart portStop rv used ports)).map cmdEvent := by
    unfold spawnCmds
    rw [issue_append, issue_of_no_log _ _ _ (portRuleCmds_no_log _ _ _ _)]
  rw [spawn_eq_main jobId w ipc ipt ss enarx portStart portStop ports nd used rv lsb f true
    hne hrange hfree]
  simp only [finishSpawn, if_pos rfl]
  refine ⟨⟨jobId, mappedOf portStart portStop rv used ports, w⟩,
    Event.queryUsedPorts ss ::
      issue 0 (fixedCmds ipc ipt jobId (jobId ++ "-host") (jobId ++ "-guest")
        (hostIpOf (lsb % 65536)) (guestIpOf (lsb % 65536)) nd) f,
    [Event.execRuntime (runtimeCmd enarx w), Event.startDestructor],
    (lsb % 65536 + 2) % 65536, ?_, ?_, ?_, ?_, ?_, ?_⟩
  · rw [hsplit]
    simp [List.cons_append, List.append_assoc]
  · have hc : (⟨ipt, ["-t", "nat", "-A", "POSTROUTING", "-s", "127.0.0.1", "-j", "MASQUERADE"],
        some "failed to set masquerade rule"⟩ : ExtCmd) ∈
        fixedCmds ipc ipt jobId (jobId ++ "-host") (jobId ++ "-guest") (hostIpOf (lsb % 65536))
          (guestIpOf (lsb % 65536)) nd := by simp [fixedCmds]
    exact List.mem_cons_of_mem _ (cmdEvent_mem_issue 0 f hc)
  · have hc : (⟨ipt, ["-t", "nat", "-A", "POSTROUTING", "!", "-s", "127.0.0.1", "-o", nd, "-j",
        "MASQUERADE"], some "failed to set masquerade rule"⟩ : ExtCmd) ∈
        fixedCmds ipc ipt jobId (jobId ++ "-host") (jobId ++ "-guest") (hostIpOf (lsb % 65536))
          (guestIpOf (lsb % 65536)) nd := by simp [fixedCmds]
    exact List.mem_cons_of_mem _ (cmdEvent_mem_issue 0 f hc)
  · have hc : (⟨ipt, ["-t", "nat", "-A", "FORWARD", "-i", jobId ++ "-guest", "-o",
        jobId ++ "-host", "-j", "ACCEPT"],
        some "failed to set guest->host forwarding rule"⟩ : ExtCmd) ∈
        fixedCmds ipc ipt jobId (jobId ++ "-host") (jobId ++ "-guest") (hostIpOf (lsb % 65536))
          (guestIpOf (lsb % 65536)) nd := by simp [fixedCmds]
    exact List.mem_cons_of_mem _ (cmdEvent_mem_issue 0 f hc)
  · have hc : (⟨ipt, ["-t", "nat", "-A", "FORWARD", "-i", jobId ++ "-host", "-o",
        jobId ++ "-guest", "-j", "ACCEPT"],
        some "failed to set host->guest forwarding rule"⟩ : ExtCmd) ∈
        fixedCmds ipc ipt jobId (jobId ++ "-host") (jobId ++ "-guest") (hostIpOf (lsb % 65536))
          (guestIpOf (lsb % 65536)) nd := by simp [fixedCmds]
    exact List.mem_cons_of_mem _ (cmdEvent_mem_issue 0 f hc)
  · intro hg hmem
    have hkeys := mappedOf_keys_nodup portStart portStop rv used ports hrange
    have hvals : ((mappedOf portStart portStop rv used ports).map Prod.snd).Nodup := by
      rw [mappedOf_values _ _ _ _ _ hrange hfree]
      exact hports
    have hcounts := count_portRules_one ipt (jobId ++ "-host") (guestIpOf (lsb % 65536))
      (mappedOf portStart portStop rv used ports) hkeys hvals hg hmem
    have hq1 : Event.queryUsedPorts ss ≠
        cmdEvent (dnatCmd ipt (jobId ++ "-host") (guestIpOf (lsb % 65536)) hg.1 hg.2) :=
      fun hc => Event.noConfusion hc
    have hq2 : Event.queryUsedPorts ss ≠
        cmdEvent (fwdCmd ipt (guestIpOf (lsb % 65536)) hg.2) :=
      fun hc => Event.noConfusion hc
    have hfix1 := count_issue_zero (fixedCmds ipc ipt jobId (jobId ++ "-host")
        (jobId ++ "-guest") (hostIpOf (lsb % 65536)) (guestIpOf (lsb % 65536)) nd) 0 f
      (cmdEvent (dnatCmd ipt (jobId ++ "-host") (guestIpOf (lsb % 65536)) hg.1 hg.2))
      (fun c hc => (fixed_ne_rules ipc ipt jobId (jobId ++ "-host") (jobId ++ "-guest")
        (hostIpOf (lsb % 65536)) (guestIpOf (lsb % 65536)) nd ipt (jobId ++ "-host")
        (guestIpOf (lsb % 65536)) hg.1 hg.2 c hc).1)
      (fun m hc => Event.noConfusion hc)
    have hfix2 := count_issue_zero (fixedCmds ipc ipt jobId (jobId ++ "-host")
        (jobId ++ "-guest") (hostIpOf (lsb % 65536)) (guestIpOf (lsb % 65536)) nd) 0 f
      (cmdEvent (fwdCmd ipt (guestIpOf (lsb % 65536)) hg.2))
      (fun c hc => (fixed_ne_rules ipc ipt jobId (jobId ++ "-host") (jobId ++ "-guest")
        (hostIpOf (lsb % 65536)) (guestIpOf (lsb % 65536)) nd ipt (jobId ++ "-host")
        (guestIpOf (lsb % 65536)) hg.1 hg.2 c hc).2)
      (fun m hc => Event.noConfusion hc)
    constructor
    · rw [List.count_append, List.count_append, count_cons_ne _ hq1, hfix1, hcounts.1,
        count_cons_ne _ (fun hc => Event.noConfusion hc),
        count_cons_ne _ (fun hc => Event.noConfusion hc), List.count_nil]
    · rw [List.count_append, List.count_append, count_cons_ne _ hq2, hfix2, hcounts.2,
        count_cons_ne _ (fun hc => Event.noConfusion hc),
        count_cons_ne _ (fun hc => Event.noConfusion hc), List.count_nil]

/-- C7 counterexample: requesting the logical port 80 twice maps it under
two distinct host ports, and the identical forward-accept rule for
guest-destination port 80 is then issued TWICE — not "exactly one
forward-accept rule for that destination and port" as claimed. -/
theorem per_port_rule_duplicate_cex :
    mappedPortsOf
        (spawn "j" (.Drawbridge "s") (some "ip") "iptables" "ss" "enarx" 30000 30002 [80, 80]
          "eth0" (some ∅) 0 0 (fun _ => false) true) = some [(30000, 80), (30001, 80)] ∧
    (traceOf (spawn "j" (.Drawbridge "s") (some "ip") "iptables" "ss" "enarx" 30000 30002
        [80, 80] "eth0" (some ∅) 0 0 (fun _ => false) true)).count
      (cmdEvent (fwdCmd "iptables" (guestIpOf 0) 80)) = 2 := by
  constructor <;> decide

/-- Witness for C7 (amended) at concrete inputs. -/
theorem per_port_nat_rules_witness :
    ([80] : List Nat) ≠ [] ∧ ([80] : List Nat).Nodup ∧
    ∃ job pre post next,
      spawn "j" (.Drawbridge "s") (some "ip") "iptables" "ss" "enarx" 30000 30002 [80] "eth0"
          (some ∅) 0 0 (fun _ => false) true =
        .ok job
          (pre ++ (portRuleCmds "iptables" ("j" ++ "-host") (guestIpOf (0 % 65536))
              job.mapped_ports).map cmdEvent ++ post) next :=
  ⟨by decide, by decide, by
    obtain ⟨job, pre, post, next, heq, -, -, -, -, -⟩ :=
      per_port_nat_rules "j" (.Drawbridge "s") "ip" "iptables" "ss" "enarx" 30000 30002 [80]
        "eth0" ∅ 0 0 (fun _ => false) (by decide) (by decide) (by decide)
    exact ⟨job, pre, post, next, heq⟩⟩

end Benefice
